import Mathlib

/-!
Verification of the MedAtlas core graph (`src/core/atlas_graph.py`) against
its natural-language specification.

The Python module defines four things: a frozen dataclass `EvidenceRef`
whose `source` field is declared with the seven-variant literal type
`Source`, mutable dataclasses `Node` and `Edge`, and the aggregate
`AtlasGraph` holding a `dict[str, Node]` and a `list[Edge]` with two
methods, `add_node` (insert-if-absent, returns `None`) and `add_edge`
(unconditional append, returns `None`).

The embedding below is shallow: Python dicts become insertion-ordered
association lists, methods become pure state-passing functions, and the
`None` return value of a method is modelled as `none : Option Bool` so
that the spec's claimed boolean return can be compared against what the
code actually returns.
-/

namespace MedAtlas

/-- The seven-variant literal type `Source` from the module. -/
inductive Source where
  | fhir
  | dicom
  | note
  | lab
  | device
  | claims
  | synthetic
deriving DecidableEq, Repr

/-- The frozen dataclass `EvidenceRef`. `frozen=True` makes it an
immutable value with field-wise equality, which is exactly a Lean
structure with structural equality; the optional fields default to
`None`. -/
structure EvidenceRef where
  source : Source
  id : String
  uri : Option String := none
  captured_at : Option String := none
deriving DecidableEq, Repr

/-- Dataclass construction of `EvidenceRef`. The Python class body
contains no runtime validation (no `__post_init__`); the `Source`
literal constrains the field only in the static type checker. The
`Option` codomain gives construction a place to fail, and the code
never uses it: every call returns `some`. -/
def EvidenceRef.construct (source : Source) (id : String)
    (uri : Option String) (captured_at : Option String) : Option EvidenceRef :=
  some ⟨source, id, uri, captured_at⟩

/-- The mutable dataclass `Node`. The payload is `dict` in Python with
values never inspected by the module; it is modelled as an association
list with string values. -/
structure Node where
  id : String
  kind : String
  payload : List (String × String)
deriving DecidableEq, Repr

/-- The mutable dataclass `Edge`; `evidence` is a `list[EvidenceRef]`
with no constraint on its length. -/
structure Edge where
  src : String
  dst : String
  kind : String
  evidence : List EvidenceRef
deriving DecidableEq, Repr

/-- The aggregate `AtlasGraph`: `nodes: dict[str, Node]` modelled as an
insertion-ordered association list with unique keys, and
`edges: list[Edge]`. -/
structure AtlasGraph where
  nodes : List (String × Node)
  edges : List Edge
deriving DecidableEq, Repr

/-- Python dict lookup `m[k]` on the association list (first matching
key wins; keys are unique in every state the methods produce). -/
def lookupNode : List (String × Node) → String → Option Node
  | [], _ => none
  | (k, v) :: rest, key => if k = key then some v else lookupNode rest key

/-- Python membership test `k in m` on the node mapping. -/
def containsKey (m : List (String × Node)) (key : String) : Bool :=
  (lookupNode m key).isSome

/-- The full call `AtlasGraph.add_node`: the Python method checks
`node.id in self.nodes`, returns early if present, otherwise stores
`self.nodes[node.id] = node` (a dict insert of a fresh key appends the
pair at the end). Both paths return `None`, modelled as
`none : Option Bool`. -/
def AtlasGraph.add_node_call (g : AtlasGraph) (node : Node) :
    AtlasGraph × Option Bool :=
  if containsKey g.nodes node.id then (g, none)
  else ({ g with nodes := g.nodes ++ [(node.id, node)] }, none)

/-- The state effect of `AtlasGraph.add_node`. -/
def AtlasGraph.add_node (g : AtlasGraph) (node : Node) : AtlasGraph :=
  (g.add_node_call node).1

/-- The full call `AtlasGraph.add_edge`: the Python method body is the
single statement `self.edges.append(edge)`, which cannot raise and
returns `None`. -/
def AtlasGraph.add_edge_call (g : AtlasGraph) (edge : Edge) :
    AtlasGraph × Option Bool :=
  ({ g with edges := g.edges ++ [edge] }, none)

/-- The state effect of `AtlasGraph.add_edge`. -/
def AtlasGraph.add_edge (g : AtlasGraph) (edge : Edge) : AtlasGraph :=
  (g.add_edge_call edge).1

/-- The empty graph `AtlasGraph(nodes={}, edges=[])`. -/
def AtlasGraph.empty : AtlasGraph := ⟨[], []⟩

/-- Graph states reachable from the empty graph through the two
mutation methods. -/
inductive Reachable : AtlasGraph → Prop
  | empty : Reachable AtlasGraph.empty
  | add_node (g : AtlasGraph) (n : Node) :
      Reachable g → Reachable (g.add_node n)
  | add_edge (g : AtlasGraph) (e : Edge) :
      Reachable g → Reachable (g.add_edge e)

/-- Invariant 1 of the spec as a decidable check: every key of the node
mapping equals the id field of the node stored under it. -/
def nodesKeysMatch (g : AtlasGraph) : Bool :=
  g.nodes.all (fun p => p.1 = p.2.id)

/-- Modelled from the spec: `trace` does not exist in `src/`; section
4.5 defines `trace(node_id)` as the set union of the evidence carried
by every edge whose `src` or `dst` equals `node_id`. This helper folds
over an explicit edge list. -/
def traceEdges (nid : String) : List Edge → Finset EvidenceRef
  | [] => ∅
  | ed :: rest =>
      if ed.src = nid ∨ ed.dst = nid then
        ed.evidence.toFinset ∪ traceEdges nid rest
      else
        traceEdges nid rest

/-- Modelled from the spec: `trace(node_id) -> set of EvidenceRef`
computes the union of evidence across every edge touching `node_id`. -/
def AtlasGraph.trace (g : AtlasGraph) (nid : String) : Finset EvidenceRef :=
  traceEdges nid g.edges

/-- Looking a key up in an appended association list searches the left
part first and falls through to the right part. -/
theorem lookupNode_append (xs ys : List (String × Node)) (k : String) :
    lookupNode (xs ++ ys) k =
      match lookupNode xs k with
      | some v => some v
      | none => lookupNode ys k := by
  induction xs with
  | nil => rfl
  | cons p rest ih =>
      simp only [List.cons_append, lookupNode]
      split
    -- key found at the head, or keep searching
      · rfl
      · exact ih

/-- C10: for every Edge, on any graph state, `add_edge` completes
without error, appends the edge at the end of the edge sequence and
leaves the node mapping unchanged — there is no validation of evidence,
endpoints or self-loops. -/
theorem add_edge_always_appends (g : MedAtlas.AtlasGraph) (e : MedAtlas.Edge) :
    (g.add_edge e).edges = g.edges ++ [e] ∧
    (g.add_edge e).nodes = g.nodes ∧
    (g.add_edge_call e).2 = none :=
  ⟨rfl, rfl, rfl⟩

/-- C1 counterexample: the claim predicts that adding an edge whose
endpoints are absent from the node mapping fails and leaves the edge
sequence length unchanged; on the empty graph the code appends the
dangling edge, changing the length from 0 to 1. -/
theorem add_edge_dangling_changes_length :
    (MedAtlas.AtlasGraph.empty.add_edge
        ⟨"obs/99", "patient/1", "subject",
          [⟨Source.fhir, "Observation/1", none, none⟩]⟩).edges.length ≠
      MedAtlas.AtlasGraph.empty.edges.length := by
  decide

/-- C1 amended: `add_edge` performs no referential-integrity check —
even when `src` or `dst` is absent from the node mapping it succeeds,
appends the edge, and leaves the node mapping unchanged. -/
theorem add_edge_ignores_dangling (g : MedAtlas.AtlasGraph) (e : MedAtlas.Edge)
    (_h : containsKey g.nodes e.src = false ∨ containsKey g.nodes e.dst = false) :
    (g.add_edge e).edges = g.edges ++ [e] ∧ (g.add_edge e).nodes = g.nodes :=
  ⟨rfl, rfl⟩

/-- Witness for the amended C1 at the empty graph and a concrete
dangling edge. -/
theorem add_edge_ignores_dangling_witness :
    (MedAtlas.AtlasGraph.empty.add_edge
        ⟨"obs/99", "patient/1", "subject",
          [⟨Source.fhir, "Observation/1", none, none⟩]⟩).edges =
      MedAtlas.AtlasGraph.empty.edges ++
        [⟨"obs/99", "patient/1", "subject",
          [⟨Source.fhir, "Observation/1", none, none⟩]⟩] ∧
    (MedAtlas.AtlasGraph.empty.add_edge
        ⟨"obs/99", "patient/1", "subject",
          [⟨Source.fhir, "Observation/1", none, none⟩]⟩).nodes =
      MedAtlas.AtlasGraph.empty.nodes :=
  add_edge_ignores_dangling MedAtlas.AtlasGraph.empty _ (Or.inl (by decide))

/-- C2 counterexample: an Edge with an empty evidence list is
constructed without failure and committed by `add_edge`: after the call
it is a member of the edge sequence. -/
theorem empty_evidence_edge_commits :
    (MedAtlas.Edge.mk "a" "b" "rel" []) ∈
      (MedAtlas.AtlasGraph.empty.add_edge ⟨"a", "b", "rel", []⟩).edges := by
  simp [MedAtlas.AtlasGraph.add_edge, MedAtlas.AtlasGraph.add_edge_call,
    MedAtlas.AtlasGraph.empty]

/-- C2 amended: neither Edge construction nor `add_edge` rejects an
empty evidence list; such an edge is committed like any other. -/
theorem add_edge_accepts_empty_evidence (g : MedAtlas.AtlasGraph)
    (src dst kind : String) :
    (g.add_edge ⟨src, dst, kind, []⟩).edges = g.edges ++ [⟨src, dst, kind, []⟩] :=
  rfl

/-- C3: `add_node` is idempotent — applying it twice with the same node
equals applying it once — and first-writer-wins: after the call, the
node stored under `n.id` is the previously stored node when the id was
already present, and `n` itself otherwise. -/
theorem add_node_idempotent (g : MedAtlas.AtlasGraph) (n : MedAtlas.Node) :
    (g.add_node n).add_node n = g.add_node n ∧
    lookupNode (g.add_node n).nodes n.id =
      some ((lookupNode g.nodes n.id).getD n) := by
  unfold MedAtlas.AtlasGraph.add_node MedAtlas.AtlasGraph.add_node_call
  cases hc : containsKey g.nodes n.id with
  | true =>
      rcases Option.isSome_iff_exists.mp hc with ⟨m, hm⟩
      simp [hc, hm]
  | false =>
      have hnone : lookupNode g.nodes n.id = none := by
        simp [containsKey] at hc
        exact hc
      have happ : lookupNode (g.nodes ++ [(n.id, n)]) n.id = some n := by
        rw [lookupNode_append, hnone]
        simp [lookupNode]
      have hc' : containsKey (g.nodes ++ [(n.id, n)]) n.id = true := by
        simp [containsKey, happ]
      simp [hc, hc', happ, hnone]

/-- C4 counterexample: on the empty graph the id "patient/1" is absent,
so the claim predicts `add_node` returns true; the code returns None. -/
theorem add_node_does_not_return_true :
    containsKey MedAtlas.AtlasGraph.empty.nodes "patient/1" = false ∧
    (MedAtlas.AtlasGraph.empty.add_node_call ⟨"patient/1", "Patient", []⟩).2 ≠
      some true := by
  exact ⟨rfl, by decide⟩

/-- C4 amended: `add_node` returns None on both paths (never a
boolean); it does not touch the edge sequence, inserts the node when
its id is absent, and leaves the node mapping untouched when the id is
already present. -/
theorem add_node_call_returns_none (g : MedAtlas.AtlasGraph) (n : MedAtlas.Node) :
    (g.add_node_call n).2 = none ∧
    (g.add_node_call n).1.edges = g.edges ∧
    (g.add_node_call n).1.nodes =
      (if containsKey g.nodes n.id then g.nodes else g.nodes ++ [(n.id, n)]) := by
  unfold MedAtlas.AtlasGraph.add_node_call
  cases hc : containsKey g.nodes n.id <;> simp [hc]

/-- C5: in every graph state reachable from the empty graph through
`add_node` and `add_edge`, every key of the node mapping equals the id
field of the node stored under it. -/
theorem reachable_keys_match_ids (g : MedAtlas.AtlasGraph) (h : Reachable g) :
    nodesKeysMatch g = true := by
  induction h with
  | empty => rfl
  | add_node g' n hr ih =>
      unfold MedAtlas.AtlasGraph.add_node MedAtlas.AtlasGraph.add_node_call
      cases hc : containsKey g'.nodes n.id with
      | true => simpa [hc] using ih
      | false =>
          unfold nodesKeysMatch at ih ⊢
          simp [hc, List.all_append, ih]
  | add_edge g' e hr ih => exact ih

/-- Witness for C5 at a concrete reachable state: the empty graph after
one node insertion and one edge append. -/
theorem reachable_keys_match_ids_witness :
    nodesKeysMatch
      ((MedAtlas.AtlasGraph.empty.add_node
          ⟨"patient/1", "Patient", []⟩).add_edge
        ⟨"obs/1", "patient/1", "subject",
          [⟨Source.fhir, "Observation/1", none, none⟩]⟩) = true :=
  reachable_keys_match_ids _
    (Reachable.add_edge _ _ (Reachable.add_node _ _ Reachable.empty))

/-- C6: mutations are monotonic — `add_node` extends the node mapping
at the end without touching existing entries or the edge sequence, and
`add_edge` extends the edge sequence at the end without touching the
node mapping; nothing is removed or reordered. -/
theorem mutations_monotonic (g : MedAtlas.AtlasGraph) (n : MedAtlas.Node)
    (e : MedAtlas.Edge) :
    (∃ t, (g.add_node n).nodes = g.nodes ++ t) ∧
    (g.add_node n).edges = g.edges ∧
    (g.add_edge e).nodes = g.nodes ∧
    (∃ t, (g.add_edge e).edges = g.edges ++ t) := by
  refine ⟨?_, ?_, rfl, ⟨[e], rfl⟩⟩
  · unfold MedAtlas.AtlasGraph.add_node MedAtlas.AtlasGraph.add_node_call
    cases hc : containsKey g.nodes n.id with
    | true => exact ⟨[], by simp [hc]⟩
    | false => exact ⟨[(n.id, n)], by simp [hc]⟩
  · unfold MedAtlas.AtlasGraph.add_node MedAtlas.AtlasGraph.add_node_call
    cases hc : containsKey g.nodes n.id <;> simp [hc]

/-- C7: EvidenceRef has value semantics — two references whose four
fields coincide are equal, hence interchangeable; immutability holds
because the frozen dataclass is embedded as a pure value with no
mutating operation. -/
theorem evidenceRef_value_semantics (a b : EvidenceRef)
    (h1 : a.source = b.source) (h2 : a.id = b.id)
    (h3 : a.uri = b.uri) (h4 : a.captured_at = b.captured_at) : a = b := by
  cases a
  cases b
  simp_all

/-- Witness for C7: two syntactically different constructions with
identical field values are equal. -/
theorem evidenceRef_value_semantics_witness :
    MedAtlas.EvidenceRef.mk Source.fhir ("Observation/" ++ "1") none none =
      MedAtlas.EvidenceRef.mk Source.fhir "Observation/1" none none :=
  evidenceRef_value_semantics _ _ rfl (by decide) rfl rfl

/-- C8 counterexample: the claim predicts that construction with an
empty id fails; the code performs no runtime validation and yields the
value. -/
theorem construct_accepts_empty_id :
    EvidenceRef.construct Source.fhir "" none none =
      some ⟨Source.fhir, "", none, none⟩ :=
  rfl

/-- C8 amended: EvidenceRef construction never fails at runtime — any
id, including the empty string, is stored unchanged; the source field
is confined to the seven fixed variants only by its declared type, not
by a runtime check. -/
theorem construct_never_fails (source : Source) (id : String)
    (uri captured_at : Option String) :
    EvidenceRef.construct source id uri captured_at =
      some ⟨source, id, uri, captured_at⟩ ∧
    (source = Source.fhir ∨ source = Source.dicom ∨ source = Source.note ∨
     source = Source.lab ∨ source = Source.device ∨ source = Source.claims ∨
     source = Source.synthetic) := by
  refine ⟨rfl, ?_⟩
  cases source <;> simp

/-- C9: a reference belongs to `trace(node_id)` exactly when some edge
touching `node_id` (as src or dst) carries it — so `trace` is the set
union of the touching edges' evidence, duplicates collapsed by the set
structure. -/
theorem trace_is_union_of_touching_evidence (g : MedAtlas.AtlasGraph)
    (nid : String) (r : EvidenceRef) :
    r ∈ g.trace nid ↔
      ∃ ed ∈ g.edges, (ed.src = nid ∨ ed.dst = nid) ∧ r ∈ ed.evidence := by
  unfold MedAtlas.AtlasGraph.trace
  induction g.edges with
  | nil => simp [traceEdges]
  | cons ed rest ih =>
      unfold traceEdges
      by_cases hc : ed.src = nid ∨ ed.dst = nid
      · simp only [hc, if_pos, Finset.mem_union, List.mem_toFinset, ih,
          List.mem_cons]
        constructor
        · rintro (hr | ⟨e, he, ht, hr⟩)
          · exact ⟨ed, Or.inl rfl, hc, hr⟩
          · exact ⟨e, Or.inr he, ht, hr⟩
        · rintro ⟨e, he | he, ht, hr⟩
          · subst he
            exact Or.inl hr
          · exact Or.inr ⟨e, he, ht, hr⟩
      · simp only [hc, if_neg, not_false_iff, ih, List.mem_cons]
        constructor
        · rintro ⟨e, he, ht, hr⟩
          exact ⟨e, Or.inr he, ht, hr⟩
        · rintro ⟨e, he | he, ht, hr⟩
          · subst he
            exact absurd ht hc
          · exact ⟨e, he, ht, hr⟩

end MedAtlas
